import Mathlib

/-!
Verification of the citation-resolution pipeline of the pinecone-assistant
repository: a shallow embedding in Lean 4 of the RAG helpers in
src/lib/rag.ts (buildContext, filterByThreshold, generateCitationUrls),
the OpenAI embedding client in src/lib/embedding.ts (generateEmbedding,
generateEmbeddingsBatch) and the chat server action in src/app/actions.ts.

Modelling conventions:
- JavaScript numbers are modelled as rationals (ℚ); the float formatting
  toFixed(1) is modelled as exact round-half-up to one decimal place.
- Promise-returning functions with external effects take oracle parameters
  describing the outcome of every external call, and return, besides the
  value, an explicit trace of the calls made, so that claims about the
  absence of external calls are statable.
- JavaScript Array.prototype.sort is stable; it is modelled with insertion
  sort, which is stable and agrees with every stable sort.
- String.prototype.trim and the JS truthiness of strings are modelled over
  the character list of the Lean string.
-/

/-- Characters of the trimmed string: JS String.prototype.trim removes
whitespace from both ends. -/
def jsTrim (s : String) : String :=
  ⟨((s.data.dropWhile Char.isWhitespace).reverse.dropWhile Char.isWhitespace).reverse⟩

/-- Prefix test on character lists (executable, structural). -/
def isPrefixList : List Char → List Char → Bool
  | [], _ => true
  | _ :: _, [] => false
  | a :: as, b :: bs => a == b && isPrefixList as bs

/-- Infix test on character lists (executable, structural); models
JS String.prototype.includes. -/
def isInfixList (p : List Char) : List Char → Bool
  | [] => p.isEmpty
  | b :: bs => isPrefixList p (b :: bs) || isInfixList p bs

/-- JS s.includes(sub). -/
def strIncludes (s sub : String) : Bool :=
  isInfixList sub.data s.data

/-- The property that the string sub occurs inside s. -/
def occursIn (sub s : String) : Prop :=
  sub.data <:+: s.data

/-- JS Array.prototype.join(sep). -/
def joinSep (sep : String) : List String → String
  | [] => ""
  | [s] => s
  | s :: t :: rest => s ++ sep ++ joinSep sep (t :: rest)

/-- JS Number.prototype.toFixed(1), modelled exactly on rationals with
round-half-up: the integer and single fractional digit of x rounded to
tenths. -/
def toFixed1 (x : ℚ) : String :=
  let n : ℤ := ⌊x * 10 + 1 / 2⌋
  (if n < 0 then "-" else "") ++ Nat.repr (n.natAbs / 10) ++ "." ++ Nat.repr (n.natAbs % 10)

/-- The relevance percentage string of a similarity score:
(similarity * 100).toFixed(1) followed by a percent sign, as produced
throughout rag.ts. -/
def pctString (sim : ℚ) : String :=
  toFixed1 (sim * 100) ++ "%"

/-- Value of a list of decimal digit characters. -/
def digitsVal (cs : List Char) : ℕ :=
  cs.foldl (fun a c => a * 10 + (c.toNat - 48)) 0

/-- Fractional digits of a decimal character stream: the digits after a
leading dot, if any. -/
def fracDigits : List Char → List Char
  | '.' :: r => r.takeWhile Char.isDigit
  | _ => []

/-- Value of an unsigned decimal digit stream (integer part, optional
fractional part). -/
def parseDec (cs : List Char) : ℚ :=
  (digitsVal (cs.takeWhile Char.isDigit) : ℚ) +
    (digitsVal (fracDigits (cs.dropWhile Char.isDigit)) : ℚ) /
      ((10 : ℚ) ^ (fracDigits (cs.dropWhile Char.isDigit)).length)

/-- JS parseFloat restricted to the decimal strings this pipeline
produces: an optional minus sign, an integer part, an optional fractional
part, parsing stops at the first character that fits neither (such as the
percent sign of a relevance string). -/
def parseFloat (s : String) : ℚ :=
  if s.data.head? = some '-' then -(parseDec (s.data.drop 1)) else parseDec s.data

/-- DocumentMatch of src/lib/types.ts: one matched document section from
vector search. -/
structure DocumentMatch where
  id : ℤ
  document_id : String
  content : String
  heading : Option String
  similarity : ℚ
  document_name : String
  storage_path : String
deriving DecidableEq, Repr

/-- Citation of src/lib/types.ts: one resolved user-facing source
reference. url is none when signed-URL generation failed; error is the
optional failure description. -/
structure Citation where
  name : String
  documentId : String
  url : Option String
  relevance : String
  error : Option String
deriving DecidableEq, Repr

instance : Inhabited Citation :=
  ⟨⟨"", "", none, "", none⟩⟩

/-- buildContext of src/lib/rag.ts: renders one match. The separator line
holds the 1-based source index and the relevance percentage; a Section
line appears only when the heading is truthy (non-null and non-empty);
the content is trimmed. -/
def renderParts (index : ℕ) (m : DocumentMatch) : List String :=
  ["--- Source " ++ Nat.repr (index + 1) ++ " (Relevance: " ++ pctString m.similarity ++ ") ---",
   "Document: " ++ m.document_name] ++
  (match m.heading with
   | some h => if h = "" then [] else ["Section: " ++ h]
   | none => []) ++
  ["Content: " ++ jsTrim m.content]

/-- The per-match rendering: the parts joined by newlines. -/
def renderMatch (index : ℕ) (m : DocumentMatch) : String :=
  joinSep "\n" (renderParts index m)

/-- buildContext of src/lib/rag.ts: the sentinel for the empty match
list, otherwise the per-match renderings joined by blank lines, in input
order. -/
def buildContext (ms : List DocumentMatch) : String :=
  if ms.isEmpty then "No relevant context found."
  else joinSep "\n\n" (ms.enum.map fun p => renderMatch p.1 p.2)

/-- filterByThreshold of src/lib/rag.ts: keeps the matches whose
similarity is at least the threshold (the source compares with >=). -/
def filterByThreshold (ms : List DocumentMatch) (threshold : ℚ) : List DocumentMatch :=
  ms.filter fun m => threshold ≤ m.similarity

/-- Outcome of one createSignedUrl call of the Supabase storage client,
as observed by the inner try block of generateCitationUrls:
a URL, a success response without URL, an error response carrying a
message, or a thrown value (with a message when it is an Error instance,
as JS distinguishes via instanceof). -/
inductive SignOutcome where
  | ok (url : String)
  | okNoUrl
  | errResp (msg : String)
  | thrown (msg : Option String)
deriving DecidableEq, Repr

/-- The storage collaborator of generateCitationUrls: whether
createAdminSupabaseClient succeeds (its failure is the catastrophic path),
and the outcome of signing a given storage path with a given expiry. -/
structure StorageEnv where
  clientOk : Bool
  sign : String → ℚ → SignOutcome

/-- Trace of the external interactions of one generateCitationUrls run:
whether the storage client was requested, and the storage paths passed to
createSignedUrl, in call order. -/
structure ResolveTrace where
  clientRequested : Bool
  signCalls : List String
deriving DecidableEq, Repr

/-- The Citation the per-document loop of generateCitationUrls pushes for
one unique document, given the outcome of its own signing call. Mirrors
the four branches of the source: success with URL, error response,
success without URL, thrown exception. -/
def citationFor (documentId : String) (m : DocumentMatch) (out : SignOutcome) : Citation :=
  match out with
  | .ok url =>
      { name := m.document_name, documentId := documentId, url := some url,
        relevance := pctString m.similarity, error := none }
  | .errResp msg =>
      { name := m.document_name, documentId := documentId, url := none,
        relevance := pctString m.similarity, error := some msg }
  | .okNoUrl =>
      { name := m.document_name, documentId := documentId, url := none,
        relevance := pctString m.similarity, error := some "No signed URL returned" }
  | .thrown msg =>
      { name := m.document_name, documentId := documentId, url := none,
        relevance := pctString m.similarity, error := some (msg.getD "Unknown error") }

/-- One step of the deduplication loop of generateCitationUrls: the JS
Map keeps insertion order; an existing entry for the same document id is
replaced in place when the new match has strictly higher similarity. -/
def upsertMax (acc : List (String × DocumentMatch)) (m : DocumentMatch) :
    List (String × DocumentMatch) :=
  match acc with
  | [] => [(m.document_id, m)]
  | (k, e) :: rest =>
    if k = m.document_id then
      if e.similarity < m.similarity then (k, m) :: rest else (k, e) :: rest
    else (k, e) :: upsertMax rest m

/-- The documentMap of generateCitationUrls after iterating the matches
in input order: one representative match per document id, the one with
the highest similarity seen (first seen wins ties), keys in
first-occurrence order. -/
def dedupByDocument (ms : List DocumentMatch) : List (String × DocumentMatch) :=
  ms.foldl upsertMax []

/-- Accumulator form of Array.from(new Set(l)): first occurrence of each
element, in input order. -/
def uniqueFirstAux (seen : List String) : List String → List String
  | [] => []
  | d :: rest =>
    if d ∈ seen then uniqueFirstAux seen rest
    else d :: uniqueFirstAux (d :: seen) rest

/-- Array.from(new Set(l)): JS Set iteration order is insertion order. -/
def uniqueFirst (l : List String) : List String :=
  uniqueFirstAux [] l

/-- The comparator of the final sort of generateCitationUrls:
(a, b) => parseFloat(b.relevance) - parseFloat(a.relevance), i.e. a may
come before b when the relevance parsed from a is at least that of b. -/
def relGE (a b : Citation) : Prop :=
  parseFloat b.relevance ≤ parseFloat a.relevance

instance : DecidableRel relGE :=
  fun a b => inferInstanceAs (Decidable (parseFloat b.relevance ≤ parseFloat a.relevance))

instance : IsTotal Citation relGE :=
  ⟨fun a b => le_total (parseFloat b.relevance) (parseFloat a.relevance)⟩

instance : IsTrans Citation relGE :=
  ⟨fun _ _ _ hab hbc => le_trans hbc hab⟩

/-- The Citation of the catastrophic-fallback path for one unique
document id: the FIRST match in input order with that id (matches.find),
no URL, the generic error string. -/
def fallbackCitation (ms : List DocumentMatch) (d : String) : Citation :=
  match ms.find? (fun m => m.document_id == d) with
  | some m =>
      { name := m.document_name, documentId := d, url := none,
        relevance := pctString m.similarity, error := some "Failed to generate citations" }
  | none => default

/-- generateCitationUrls of src/lib/rag.ts, instrumented with the trace
of external calls. The empty input returns before the storage client is
requested; if the client cannot be constructed the whole try block fails
and the catch produces the fallback citations (no signing calls);
otherwise each unique document representative is signed independently and
the citations are sorted descending by parsed relevance (stable sort,
modelled by insertion sort). -/
def generateCitationUrlsT (env : StorageEnv) (ms : List DocumentMatch)
    (expirySeconds : ℚ) : List Citation × ResolveTrace :=
  if ms.isEmpty then ([], ⟨false, []⟩)
  else if env.clientOk then
    let entries := dedupByDocument ms
    let citations := entries.map fun p => citationFor p.1 p.2 (env.sign p.2.storage_path expirySeconds)
    (citations.insertionSort relGE, ⟨true, entries.map fun p => p.2.storage_path⟩)
  else
    ((uniqueFirst (ms.map fun m => m.document_id)).map (fallbackCitation ms), ⟨true, []⟩)

/-- generateCitationUrls of src/lib/rag.ts: the returned citation list. -/
def generateCitationUrls (env : StorageEnv) (ms : List DocumentMatch)
    (expirySeconds : ℚ) : List Citation :=
  (generateCitationUrlsT env ms expirySeconds).1

/-- Outcome of one embeddings.create call of the OpenAI client in
generateEmbedding: a response (whose first data item may be missing), or
a thrown error with its message (String(error) when not an Error
instance, as the source coerces). -/
inductive EmbedCallOutcome where
  | resp (first : Option (List ℚ))
  | thrown (msg : String)
deriving DecidableEq, Repr

/-- Configured embedding dimensionality of EMBEDDING_CONFIG. -/
def EMBEDDING_DIMENSIONS : ℕ := 1536

/-- Configured maximum number of attempts of EMBEDDING_CONFIG. -/
def EMBEDDING_MAX_RETRIES : ℕ := 3

/-- The validation-error test of the catch block of generateEmbedding:
messages mentioning empty text or dimensions are never retried. -/
def nonRetryable (msg : String) : Bool :=
  strIncludes msg "empty text" || strIncludes msg "dimensions"

/-- The retry loop of generateEmbedding: remaining attempts, provider
calls made so far, last error message. Each iteration makes one provider
call; caught errors are rethrown immediately when nonRetryable, otherwise
the next attempt runs; exhausting the attempts raises the wrapped
failure. -/
def embedLoop (provider : ℕ → EmbedCallOutcome) :
    ℕ → ℕ → String → Except String (List ℚ) × ℕ
  | 0, calls, lastErr =>
    (.error ("Failed to generate embedding after 3 attempts: " ++ lastErr), calls)
  | r + 1, calls, _ =>
    match provider calls with
    | .resp none =>
      let msg := "No embedding returned from OpenAI API"
      if nonRetryable msg then (.error msg, calls + 1)
      else embedLoop provider r (calls + 1) msg
    | .resp (some emb) =>
      if emb.length ≠ EMBEDDING_DIMENSIONS then
        let msg := "Expected 1536 dimensions, got " ++ Nat.repr emb.length
        if nonRetryable msg then (.error msg, calls + 1)
        else embedLoop provider r (calls + 1) msg
      else (.ok emb, calls + 1)
    | .thrown msg =>
      if nonRetryable msg then (.error msg, calls + 1)
      else embedLoop provider r (calls + 1) msg

/-- generateEmbedding of src/lib/embedding.ts (with the OpenAI client
constructible), paired with the number of provider calls made. Empty
text after trimming fails before any provider call; otherwise up to
EMBEDDING_MAX_RETRIES calls are made. -/
def generateEmbedding (provider : ℕ → EmbedCallOutcome) (text : String) :
    Except String (List ℚ) × ℕ :=
  if jsTrim text = "" then (.error "Cannot generate embedding for empty text", 0)
  else embedLoop provider EMBEDDING_MAX_RETRIES 0 ""

/-- Outcome of one embeddings.create call in generateEmbeddingsBatch: a
response whose data items carry an index and an embedding, or a thrown
error. -/
inductive BatchCallOutcome where
  | resp (data : List (ℕ × List ℚ))
  | thrown (msg : String)
deriving DecidableEq, Repr

/-- The comparator of the per-batch response sort:
(a, b) => a.index - b.index, ascending by index. -/
def idxLE (a b : ℕ × List ℚ) : Prop := a.1 ≤ b.1

instance : DecidableRel idxLE :=
  fun a b => inferInstanceAs (Decidable (a.1 ≤ b.1))

instance : IsTotal (ℕ × List ℚ) idxLE :=
  ⟨fun a b => Nat.le_total a.1 b.1⟩

instance : IsTrans (ℕ × List ℚ) idxLE :=
  ⟨fun _ _ _ hab hbc => Nat.le_trans hab hbc⟩

/-- The slicing of the batch loop, fuelled to stay structural:
texts.slice(i, i + batchSize) for i = 0, batchSize, 2*batchSize, ...
The fuel l.length suffices for every positive batch size. -/
def sliceChunksAux (bs : ℕ) : ℕ → List String → List (List String)
  | 0, _ => []
  | _, [] => []
  | fuel + 1, a :: l => (a :: l).take bs :: sliceChunksAux bs fuel ((a :: l).drop bs)

/-- The consecutive batches of at most bs texts the batch loop sends
(defined for positive bs; the source default is 100). -/
def sliceChunks (bs : ℕ) (l : List String) : List (List String) :=
  sliceChunksAux bs l.length l

/-- The per-batch retry loop of generateEmbeddingsBatch: remaining
attempts, global call counter. Returns the batch embeddings sorted by
response index, the new call counter, and the batches sent (one per
provider call). The final failed attempt raises the wrapped failure. -/
def batchRetry (provider : ℕ → BatchCallOutcome) (batch : List String) :
    ℕ → ℕ → Except String (List (List ℚ)) × ℕ × List (List String)
  | 0, calls => (.error "", calls, [])
  | r + 1, calls =>
    match provider calls with
    | .resp data => (.ok ((data.insertionSort idxLE).map fun p => p.2), calls + 1, [batch])
    | .thrown msg =>
      if r = 0 then
        (.error ("Failed to generate batch embeddings after 3 attempts: " ++ msg), calls + 1, [batch])
      else
        match batchRetry provider batch r (calls + 1) with
        | (res, c, sent) => (res, c, batch :: sent)

/-- The outer batch loop of generateEmbeddingsBatch: processes each
batch in order, accumulating embeddings; a batch that exhausts its
retries aborts the whole call. -/
def batchLoop (provider : ℕ → BatchCallOutcome) :
    List (List String) → ℕ → Except String (List (List ℚ)) × ℕ × List (List String)
  | [], calls => (.ok [], calls, [])
  | b :: rest, calls =>
    match batchRetry provider b EMBEDDING_MAX_RETRIES calls with
    | (.ok embs, c2, sent) =>
      match batchLoop provider rest c2 with
      | (.ok more, c3, sent2) => (.ok (embs ++ more), c3, sent ++ sent2)
      | (.error e, c3, sent2) => (.error e, c3, sent ++ sent2)
    | (.error e, c2, sent) => (.error e, c2, sent)

/-- generateEmbeddingsBatch of src/lib/embedding.ts, with the lazy
OpenAI client modelled by clientOk and the provider by a call-indexed
oracle; returns the result, the number of provider calls, and the
batches sent. The empty text list returns before the client is obtained;
an unconstructible client raises the missing-key error. -/
def generateEmbeddingsBatch (clientOk : Bool) (provider : ℕ → BatchCallOutcome)
    (texts : List String) (batchSize : ℕ) :
    Except String (List (List ℚ)) × ℕ × List (List String) :=
  if texts.isEmpty then (.ok [], 0, [])
  else if clientOk then batchLoop provider (sliceChunks batchSize texts) 0
  else (.error "Missing OPENAI_API_KEY environment variable", 0, [])

/-- One chat message of src/app/actions.ts. -/
structure Message where
  role : String
  content : String
deriving DecidableEq, Repr

/-- State of the streamable value handed back by chat: failed before any
token (the catch branch), closed after streaming all chunks, or marked
failed mid-stream after the chunks already streamed. -/
inductive StreamState where
  | failedNow (msg : String)
  | closed (chunks : List String)
  | errored (chunks : List String) (msg : String)
deriving DecidableEq, Repr

/-- The collaborators of the chat server action: the traced embedding
client, the traced RAG search (returning context and matches), the
storage environment used by generateCitationUrls, and the LLM streaming
outcome (chunks delivered, then an optional mid-stream error). -/
structure ChatEnv where
  embed : String → Except String (List ℚ)
  ragSearch : List ℚ → Except String (String × List DocumentMatch)
  storage : StorageEnv
  llmChunks : List String
  llmError : Option String

/-- The value chat returns to its caller: the stream handle and the
synchronously available citations. -/
structure ChatResult where
  object : StreamState
  citations : List Citation
deriving DecidableEq, Repr

/-- chat of src/app/actions.ts, paired with the number of calls made to
the embedding client. Validation failures and embed/search failures are
caught by the outer try and produce an immediately-failed stream with
empty citations; otherwise citations are resolved and streaming starts
in the background. -/
def chat (env : ChatEnv) (msgs : List Message) : ChatResult × ℕ :=
  match msgs.getLast? with
  | none => ({ object := .failedNow "No messages provided", citations := [] }, 0)
  | some lastMessage =>
    if lastMessage.content = "" then
      ({ object := .failedNow "Invalid message format", citations := [] }, 0)
    else
      match env.embed lastMessage.content with
      | .error e => ({ object := .failedNow e, citations := [] }, 1)
      | .ok embedding =>
        match env.ragSearch embedding with
        | .error e => ({ object := .failedNow e, citations := [] }, 1)
        | .ok (_, ms) =>
          let citations := generateCitationUrls env.storage ms 3600
          let object := match env.llmError with
            | none => StreamState.closed env.llmChunks
            | some m => StreamState.errored env.llmChunks m
          ({ object := object, citations := citations }, 1)

/-- The relevance property claimed of the citation resolver: every
returned Citation carries the maximum similarity among the input matches
sharing its document identifier, formatted as a percentage to one
decimal place. -/
def CarriesMaxRelevance (env : StorageEnv) (ms : List DocumentMatch) (e : ℚ) : Prop :=
  ∀ c ∈ generateCitationUrls env ms e, ∃ m, m ∈ ms ∧ m.document_id = c.documentId ∧
    (∀ m2 ∈ ms, m2.document_id = c.documentId → m2.similarity ≤ m.similarity) ∧
    c.relevance = pctString m.similarity

/-- The ordering property claimed of the citation resolver: adjacent
citations are descending by the numeric value parsed from the relevance
string (the relation relGE). -/
def SortedByParsedRelevance (env : StorageEnv) (ms : List DocumentMatch) (e : ℚ) : Prop :=
  List.Chain' relGE (generateCitationUrls env ms e)

/-- A signing outcome the source treats as a per-document failure. -/
def SignFailure (out : SignOutcome) : Prop :=
  out = .okNoUrl ∨ (∃ msg, out = .errResp msg) ∨ ∃ msg, out = .thrown msg

/-- The failure messages carried by a signing outcome are non-empty. -/
def SignMsgsNonempty (out : SignOutcome) : Prop :=
  (∀ msg, out = .errResp msg → msg ≠ "") ∧ ∀ msg, out = .thrown (some msg) → msg ≠ ""

/-- Two sections of the same document, the earlier one with the lower
similarity. -/
def mDup1 : DocumentMatch :=
  ⟨1, "doc-1", "alpha", none, 1 / 2, "Doc One", "p1"⟩

/-- Second section of the same document, higher similarity. -/
def mDup2 : DocumentMatch :=
  ⟨2, "doc-1", "beta", none, 9 / 10, "Doc One", "p2"⟩

/-- A low-similarity match of one document. -/
def mLow : DocumentMatch :=
  ⟨1, "doc-1", "alpha", none, 1 / 2, "Doc One", "p1"⟩

/-- A high-similarity match of a second document. -/
def mHigh : DocumentMatch :=
  ⟨2, "doc-2", "beta", none, 9 / 10, "Doc Two", "p2"⟩

/-- A storage environment whose client cannot be constructed: the
catastrophic path of generateCitationUrls. -/
def envDown : StorageEnv :=
  ⟨false, fun _ _ => .thrown none⟩

/-- A healthy storage environment: every signing call succeeds. -/
def envUp : StorageEnv :=
  ⟨true, fun _ _ => .ok "https://signed.example/u"⟩

/-- A storage environment where signing fails for path p1 with an error
response and succeeds for every other path. -/
def envMixed : StorageEnv :=
  ⟨true, fun p _ => if p = "p1" then .errResp "mint failed" else .ok "https://signed.example/u"⟩

/-- A match whose similarity is exactly the default threshold 0.45. -/
def mAtThreshold : DocumentMatch :=
  ⟨1, "doc-1", "alpha", none, 45 / 100, "Doc One", "p1"⟩

/-- The filtering behaviour the claim asserts of filterByThreshold:
only matches with similarity strictly greater than the threshold are
kept. -/
def ThresholdStrict (ms : List DocumentMatch) (t : ℚ) : Prop :=
  ∀ m, m ∈ filterByThreshold ms t ↔ m ∈ ms ∧ t < m.similarity

/-- A match with a heading, for exercising buildContext. -/
def mHead : DocumentMatch :=
  ⟨1, "doc-1", "  body text  ", some "Intro", 1 / 2, "Doc One", "p1"⟩

/-- An environment for exercising chat whose embedding client is down. -/
def envChatEmbedDown : ChatEnv :=
  ⟨fun _ => .error "embedding provider unavailable", fun _ => .error "unused",
    envUp, [], none⟩

/-- A provider failing twice transiently and then returning a
1536-dimensional zero vector. -/
def provRetry : ℕ → EmbedCallOutcome := fun n =>
  if n = 0 then .thrown "socket hang up"
  else if n = 1 then .thrown "socket hang up"
  else .resp (some (List.replicate 1536 0))

/-- The behaviour the claim asserts of the batch variant: the output has
one embedding per non-blank text (blank entries silently dropped). -/
def BatchCountMatchesNonBlank (clientOk : Bool) (provider : ℕ → BatchCallOutcome)
    (texts : List String) (bs : ℕ) : Prop :=
  ∀ l, (generateEmbeddingsBatch clientOk provider texts bs).1 = .ok l →
    l.length = (texts.filter fun t => !(jsTrim t == "")).length

/-- A provider answering every call with indexed embeddings for a
two-entry batch. -/
def provPair : ℕ → BatchCallOutcome := fun _ => .resp [(0, [1]), (1, [2])]

/-- The embedding each text of the witness batch receives. -/
def fBlank : String → List ℚ := fun t => if t = "" then [1] else [2]

example : jsTrim "  ab " = "ab" := by decide

example : strIncludes "abcd" "bc" = true := by decide

example : strIncludes "abcd" "ca" = false := by decide

example : joinSep "," ["a", "b", "c"] = "a,b,c" := by decide

theorem upsertMax_keys (m : DocumentMatch) :
    ∀ acc : List (String × DocumentMatch),
      (upsertMax acc m).map Prod.fst =
        if m.document_id ∈ acc.map Prod.fst then acc.map Prod.fst
        else acc.map Prod.fst ++ [m.document_id]
  | [] => by simp [upsertMax]
  | (k, e) :: rest => by
    by_cases hk : k = m.document_id
    · subst hk
      simp only [upsertMax, if_pos rfl]
      by_cases hs : e.similarity < m.similarity <;> simp [hs]
    · have ih := upsertMax_keys m rest
      simp only [upsertMax, if_neg hk, List.map_cons, ih]
      by_cases hmem : m.document_id ∈ rest.map Prod.fst
      · simp [hmem, Ne.symm hk]
      · simp [hmem, Ne.symm hk]

theorem upsertMax_entries (ms : List DocumentMatch) (m : DocumentMatch) :
    ∀ acc : List (String × DocumentMatch),
      (∀ p ∈ acc, p.2.document_id = p.1 ∧ p.2 ∈ ms ∧
        ∀ m2 ∈ ms, m2.document_id = p.1 → m2.similarity ≤ p.2.similarity) →
      (m.document_id ∉ acc.map Prod.fst → ∀ m2 ∈ ms, m2.document_id ≠ m.document_id) →
      (acc.map Prod.fst).Nodup →
      ∀ p ∈ upsertMax acc m, p.2.document_id = p.1 ∧ p.2 ∈ ms ++ [m] ∧
        ∀ m2 ∈ ms ++ [m], m2.document_id = p.1 → m2.similarity ≤ p.2.similarity := by
  intro acc
  induction acc with
  | nil =>
    intro _ hfresh _ p hp
    simp only [upsertMax, List.mem_singleton] at hp
    subst hp
    refine ⟨rfl, by simp, ?_⟩
    intro m2 hm2 hid
    rcases List.mem_append.1 hm2 with hin | hin
    · exact absurd hid (hfresh (by simp) m2 hin)
    · simp only [List.mem_singleton] at hin
      subst hin
      exact le_refl _
  | cons head rest ih =>
    obtain ⟨k, e⟩ := head
    intro hent hfresh hnd
    have hent_head := hent (k, e) (List.mem_cons_self _ _)
    have hent_rest : ∀ p ∈ rest, p.2.document_id = p.1 ∧ p.2 ∈ ms ∧
        ∀ m2 ∈ ms, m2.document_id = p.1 → m2.similarity ≤ p.2.similarity :=
      fun p hp => hent p (List.mem_cons_of_mem _ hp)
    have hnd_rest : (rest.map Prod.fst).Nodup := (List.nodup_cons.1 (by simpa using hnd)).2
    have hk_not : k ∉ rest.map Prod.fst := (List.nodup_cons.1 (by simpa using hnd)).1
    by_cases hk : k = m.document_id
    · subst hk
      have hrest_ne : ∀ p ∈ rest, p.1 ≠ m.document_id := by
        intro p hp hEq
        exact hk_not (hEq ▸ List.mem_map_of_mem Prod.fst hp)
      have hlift : ∀ p ∈ rest, p.2.document_id = p.1 ∧ p.2 ∈ ms ++ [m] ∧
          ∀ m2 ∈ ms ++ [m], m2.document_id = p.1 → m2.similarity ≤ p.2.similarity := by
        intro p hp
        obtain ⟨h1, h2, h3⟩ := hent_rest p hp
        refine ⟨h1, List.mem_append_left _ h2, ?_⟩
        intro m2 hm2 hid
        rcases List.mem_append.1 hm2 with hin | hin
        · exact h3 m2 hin hid
        · simp only [List.mem_singleton] at hin
          subst hin
          exact absurd hid (Ne.symm (hrest_ne p hp))
      simp only [upsertMax, if_pos rfl]
      by_cases hs : e.similarity < m.similarity
      · rw [if_pos hs]
        intro p hp
        rcases List.mem_cons.1 hp with hp | hp
        · subst hp
          refine ⟨rfl, by simp, ?_⟩
          intro m2 hm2 hid
          rcases List.mem_append.1 hm2 with hin | hin
          · exact le_of_lt (lt_of_le_of_lt (hent_head.2.2 m2 hin hid) hs)
          · simp only [List.mem_singleton] at hin
            subst hin
            exact le_refl _
        · exact hlift p hp
      · rw [if_neg hs]
        intro p hp
        rcases List.mem_cons.1 hp with hp | hp
        · subst hp
          refine ⟨hent_head.1, List.mem_append_left _ hent_head.2.1, ?_⟩
          intro m2 hm2 hid
          rcases List.mem_append.1 hm2 with hin | hin
          · exact hent_head.2.2 m2 hin hid
          · simp only [List.mem_singleton] at hin
            subst hin
            exact le_of_not_lt hs
        · exact hlift p hp
    · simp only [upsertMax, if_neg hk]
      intro p hp
      rcases List.mem_cons.1 hp with hp | hp
      · subst hp
        refine ⟨hent_head.1, List.mem_append_left _ hent_head.2.1, ?_⟩
        intro m2 hm2 hid
        rcases List.mem_append.1 hm2 with hin | hin
        · exact hent_head.2.2 m2 hin hid
        · simp only [List.mem_singleton] at hin
          subst hin
          exact absurd hid.symm hk
      · refine ih hent_rest ?_ hnd_rest p hp
        intro hnot
        refine hfresh ?_
        simp only [List.map_cons, List.mem_cons]
        rintro (h | h)
        · exact hk h.symm
        · exact hnot h

theorem dedupByDocument_spec (ms : List DocumentMatch) :
    ((dedupByDocument ms).map Prod.fst).Nodup ∧
    (∀ d, d ∈ (dedupByDocument ms).map Prod.fst ↔ d ∈ ms.map fun m => m.document_id) ∧
    ∀ p ∈ dedupByDocument ms, p.2.document_id = p.1 ∧ p.2 ∈ ms ∧
      ∀ m2 ∈ ms, m2.document_id = p.1 → m2.similarity ≤ p.2.similarity := by
  induction ms using List.reverseRecOn with
  | nil => simp [dedupByDocument]
  | append_singleton ms m ih =>
    obtain ⟨hnd, hiff, hent⟩ := ih
    have hfold : dedupByDocument (ms ++ [m]) = upsertMax (dedupByDocument ms) m := by
      simp [dedupByDocument, List.foldl_concat]
    have hfresh : m.document_id ∉ (dedupByDocument ms).map Prod.fst →
        ∀ m2 ∈ ms, m2.document_id ≠ m.document_id := by
      intro hnot m2 hm2 hEq
      exact hnot ((hiff m.document_id).2 (hEq ▸ List.mem_map_of_mem _ hm2))
    have hkeys := upsertMax_keys m (dedupByDocument ms)
    refine ⟨?_, ?_, ?_⟩
    · rw [hfold, hkeys]
      by_cases hmem : m.document_id ∈ (dedupByDocument ms).map Prod.fst
      · rwa [if_pos hmem]
      · rw [if_neg hmem, List.nodup_append]
        refine ⟨hnd, List.nodup_singleton _, ?_⟩
        intro x hx hx2
        simp only [List.mem_singleton] at hx2
        exact hmem (hx2 ▸ hx)
    · intro d
      rw [hfold, hkeys]
      by_cases hmem : m.document_id ∈ (dedupByDocument ms).map Prod.fst
      · rw [if_pos hmem]
        simp only [List.map_append, List.map_cons, List.map_nil, List.mem_append,
          List.mem_singleton]
        constructor
        · intro hd
          exact Or.inl ((hiff d).1 hd)
        · rintro (h | h)
          · exact (hiff d).2 h
          · exact h ▸ hmem
      · rw [if_neg hmem]
        simp only [List.map_append, List.map_cons, List.map_nil, List.mem_append,
          List.mem_singleton, hiff d]
    · rw [hfold]
      exact upsertMax_entries ms m (dedupByDocument ms) hent hfresh hnd

theorem citationFor_documentId (d : String) (m : DocumentMatch) (out : SignOutcome) :
    (citationFor d m out).documentId = d := by
  cases out <;> rfl

theorem citationFor_relevance (d : String) (m : DocumentMatch) (out : SignOutcome) :
    (citationFor d m out).relevance = pctString m.similarity := by
  cases out <;> rfl

theorem generateCitationUrlsT_empty (env : StorageEnv) (e : ℚ) :
    generateCitationUrlsT env [] e = ([], ⟨false, []⟩) := by
  simp [generateCitationUrlsT]

theorem generateCitationUrls_clientOk (env : StorageEnv) (ms : List DocumentMatch) (e : ℚ)
    (hc : env.clientOk = true) (hne : ms ≠ []) :
    generateCitationUrls env ms e =
      ((dedupByDocument ms).map fun p =>
        citationFor p.1 p.2 (env.sign p.2.storage_path e)).insertionSort relGE := by
  simp [generateCitationUrls, generateCitationUrlsT, hc, hne]

theorem generateCitationUrls_clientBad (env : StorageEnv) (ms : List DocumentMatch) (e : ℚ)
    (hc : env.clientOk = false) (hne : ms ≠ []) :
    generateCitationUrls env ms e =
      (uniqueFirst (ms.map fun m => m.document_id)).map (fallbackCitation ms) := by
  simp [generateCitationUrls, generateCitationUrlsT, hc, hne]

theorem mem_uniqueFirstAux (a : String) :
    ∀ (l seen : List String), a ∈ uniqueFirstAux seen l ↔ a ∈ l ∧ a ∉ seen
  | [], seen => by simp [uniqueFirstAux]
  | d :: rest, seen => by
    by_cases hd : d ∈ seen
    · rw [uniqueFirstAux, if_pos hd, mem_uniqueFirstAux a rest seen]
      constructor
      · rintro ⟨h1, h2⟩
        exact ⟨List.mem_cons_of_mem _ h1, h2⟩
      · rintro ⟨h1, h2⟩
        rcases List.mem_cons.1 h1 with h | h
        · exact absurd (h ▸ hd) h2
        · exact ⟨h, h2⟩
    · rw [uniqueFirstAux, if_neg hd]
      by_cases had : a = d
      · subst had
        simp [hd]
      · rw [List.mem_cons]
        constructor
        · rintro (h | h)
          · exact absurd h had
          · obtain ⟨h1, h2⟩ := (mem_uniqueFirstAux a rest (d :: seen)).1 h
            refine ⟨List.mem_cons_of_mem _ h1, fun hs => h2 (List.mem_cons_of_mem _ hs)⟩
        · rintro ⟨h1, h2⟩
          rcases List.mem_cons.1 h1 with h | h
          · exact absurd h had
          · refine Or.inr ((mem_uniqueFirstAux a rest (d :: seen)).2 ⟨h, ?_⟩)
            intro hs
            rcases List.mem_cons.1 hs with h3 | h3
            · exact had h3
            · exact h2 h3

theorem nodup_uniqueFirstAux :
    ∀ (l seen : List String), (uniqueFirstAux seen l).Nodup
  | [], _ => by simp [uniqueFirstAux]
  | d :: rest, seen => by
    by_cases hd : d ∈ seen
    · rw [uniqueFirstAux, if_pos hd]
      exact nodup_uniqueFirstAux rest seen
    · rw [uniqueFirstAux, if_neg hd]
      refine List.nodup_cons.2 ⟨?_, nodup_uniqueFirstAux rest (d :: seen)⟩
      intro hmem
      exact ((mem_uniqueFirstAux d rest (d :: seen)).1 hmem).2 (List.mem_cons_self _ _)

theorem mem_uniqueFirst (a : String) (l : List String) :
    a ∈ uniqueFirst l ↔ a ∈ l := by
  rw [uniqueFirst, mem_uniqueFirstAux]
  simp

theorem nodup_uniqueFirst (l : List String) : (uniqueFirst l).Nodup :=
  nodup_uniqueFirstAux l []

theorem fallbackCitation_spec (ms : List DocumentMatch) (d : String)
    (hd : d ∈ ms.map fun m => m.document_id) :
    ∃ m, ms.find? (fun m2 => m2.document_id == d) = some m ∧ m ∈ ms ∧ m.document_id = d ∧
      fallbackCitation ms d =
        { name := m.document_name, documentId := d, url := none,
          relevance := pctString m.similarity, error := some "Failed to generate citations" } := by
  obtain ⟨m0, hm0, hid0⟩ := List.mem_map.1 hd
  have hsome : (ms.find? fun m2 => m2.document_id == d).isSome := by
    rw [List.find?_isSome]
    exact ⟨m0, hm0, by simp [hid0]⟩
  obtain ⟨m, hm⟩ := Option.isSome_iff_exists.1 hsome
  have hmem : m ∈ ms := List.mem_of_find?_eq_some hm
  have hid : m.document_id = d := by
    have := List.find?_some hm
    simpa using this
  exact ⟨m, hm, hmem, hid, by rw [fallbackCitation, hm]⟩

theorem fallbackCitation_documentId (ms : List DocumentMatch) (d : String)
    (hd : d ∈ ms.map fun m => m.document_id) :
    (fallbackCitation ms d).documentId = d := by
  obtain ⟨m, _, _, _, hrec⟩ := fallbackCitation_spec ms d hd
  rw [hrec]

theorem nodup_length_eq_toFinset_card {l1 l2 : List String} (hnd : l1.Nodup)
    (hiff : ∀ a, a ∈ l1 ↔ a ∈ l2) : l1.length = l2.toFinset.card := by
  rw [← List.toFinset_card_of_nodup hnd]
  congr 1
  ext a
  simp only [List.mem_toFinset]
  exact hiff a

theorem generateCitationUrls_ids (env : StorageEnv) (ms : List DocumentMatch) (e : ℚ)
    (hne : ms ≠ []) :
    (((generateCitationUrls env ms e).map fun c => c.documentId).Nodup ∧
      ∀ a, a ∈ (generateCitationUrls env ms e).map (fun c => c.documentId) ↔
        a ∈ ms.map fun m => m.document_id) := by
  cases hc : env.clientOk with
  | true =>
    rw [generateCitationUrls_clientOk env ms e hc hne]
    obtain ⟨hnd, hiff, _⟩ := dedupByDocument_spec ms
    have hmapids : (((dedupByDocument ms).map fun p =>
        citationFor p.1 p.2 (env.sign p.2.storage_path e)).map fun c => c.documentId) =
        (dedupByDocument ms).map Prod.fst := by
      rw [List.map_map]
      exact List.map_congr_left fun p _ => citationFor_documentId p.1 p.2 _
    have hperm := (List.perm_insertionSort relGE ((dedupByDocument ms).map fun p =>
      citationFor p.1 p.2 (env.sign p.2.storage_path e))).map fun c => c.documentId
    rw [hmapids] at hperm
    exact ⟨hperm.nodup_iff.2 hnd, fun a => (hperm.mem_iff).trans (hiff a)⟩
  | false =>
    rw [generateCitationUrls_clientBad env ms e hc hne]
    have hmapids : (((uniqueFirst (ms.map fun m => m.document_id)).map
        (fallbackCitation ms)).map fun c => c.documentId) =
        uniqueFirst (ms.map fun m => m.document_id) := by
      rw [List.map_map]
      have h2 : List.map ((fun c => c.documentId) ∘ fallbackCitation ms)
          (uniqueFirst (ms.map fun m => m.document_id)) =
          List.map id (uniqueFirst (ms.map fun m => m.document_id)) :=
        List.map_congr_left fun d hd =>
          fallbackCitation_documentId ms d ((mem_uniqueFirst d _).1 hd)
      rw [h2, List.map_id]
    rw [hmapids]
    exact ⟨nodup_uniqueFirst _, fun a => mem_uniqueFirst a _⟩

theorem citations_empty_input (env : StorageEnv) (e : ℚ) :
    generateCitationUrls env [] e = [] := by
  simp [generateCitationUrls, generateCitationUrlsT]

/-- C1 (amended): on the normal path (storage client constructible) every
Citation carries the maximum similarity among the matches sharing its
document identifier, formatted as the similarity times 100 to one decimal
place followed by a percent sign; on the catastrophic-fallback path each
Citation instead carries the similarity of the FIRST match in input order
with its document identifier (matches.find), formatted the same way. -/
theorem generateCitationUrls_relevance_spec (env : StorageEnv) (ms : List DocumentMatch)
    (e : ℚ) (hc : env.clientOk = true) :
    CarriesMaxRelevance env ms e ∧
    ∀ env2 : StorageEnv, env2.clientOk = false →
      ∀ c ∈ generateCitationUrls env2 ms e, ∃ m,
        ms.find? (fun m2 => m2.document_id == c.documentId) = some m ∧
        m.document_id = c.documentId ∧ c.relevance = pctString m.similarity := by
  constructor
  · intro c hcmem
    by_cases hms : ms = []
    · subst hms
      rw [citations_empty_input] at hcmem
      exact absurd hcmem (List.not_mem_nil c)
    · rw [generateCitationUrls_clientOk env ms e hc hms] at hcmem
      have hmem2 := (List.perm_insertionSort relGE _).mem_iff.1 hcmem
      obtain ⟨p, hp, hpc⟩ := List.mem_map.1 hmem2
      obtain ⟨hid, hmm, hmax⟩ := (dedupByDocument_spec ms).2.2 p hp
      have hdoc : c.documentId = p.1 := by rw [← hpc, citationFor_documentId]
      refine ⟨p.2, hmm, by rw [hdoc, hid], ?_, ?_⟩
      · intro m2 hm2 hid2
        exact hmax m2 hm2 (hid2.trans hdoc)
      · rw [← hpc, citationFor_relevance]
  · intro env2 h2 c hcmem
    by_cases hms : ms = []
    · subst hms
      rw [citations_empty_input] at hcmem
      exact absurd hcmem (List.not_mem_nil c)
    · rw [generateCitationUrls_clientBad env2 ms e h2 hms] at hcmem
      obtain ⟨d, hd, hdc⟩ := List.mem_map.1 hcmem
      have hdid : d ∈ ms.map fun m => m.document_id := (mem_uniqueFirst d _).1 hd
      obtain ⟨m, hfind, _, hid, hrec⟩ := fallbackCitation_spec ms d hdid
      have hcd : c.documentId = d := by
        rw [← hdc, fallbackCitation_documentId ms d hdid]
      refine ⟨m, by rw [hcd]; exact hfind, by rw [hcd, hid], ?_⟩
      rw [← hdc, hrec]

/-- C2 (amended): on the normal path the citation list is sorted
descending by the numeric value parsed from the relevance strings; on the
catastrophic-fallback path the citations are produced in first-occurrence
order of the document identifiers, without sorting. -/
theorem generateCitationUrls_sorted_spec (env : StorageEnv) (ms : List DocumentMatch)
    (e : ℚ) (hc : env.clientOk = true) :
    SortedByParsedRelevance env ms e ∧
    ∀ env2 : StorageEnv, env2.clientOk = false → ms ≠ [] →
      generateCitationUrls env2 ms e =
        (uniqueFirst (ms.map fun m => m.document_id)).map (fallbackCitation ms) := by
  constructor
  · rw [SortedByParsedRelevance]
    by_cases hms : ms = []
    · subst hms
      rw [citations_empty_input]
      exact List.chain'_nil
    · rw [generateCitationUrls_clientOk env ms e hc hms]
      exact (List.sorted_insertionSort relGE _).chain'
  · intro env2 h2 hms
    exact generateCitationUrls_clientBad env2 ms e h2 hms

/-- C3: per-document URL-minting failures are isolated. On the normal
path every returned Citation is exactly the citation computed from its
own document representative and its own signing outcome (so one
document's failure cannot affect another's); a failing outcome yields a
url-absent Citation whose error description is present (and non-empty
when the provider messages are); the catastrophic path yields one
url-absent, generic-error Citation per unique document; on every path
there is exactly one Citation per unique input document identifier, and
the function is total (never raises past its boundary). -/
theorem generateCitationUrls_failure_isolation (env : StorageEnv) (ms : List DocumentMatch)
    (e : ℚ) (hc : env.clientOk = true) :
    (∀ c ∈ generateCitationUrls env ms e, ∃ m, m ∈ ms ∧ m.document_id = c.documentId ∧
      c = citationFor c.documentId m (env.sign m.storage_path e)) ∧
    (∀ d m url, citationFor d m (.ok url) =
      { name := m.document_name, documentId := d, url := some url,
        relevance := pctString m.similarity, error := none }) ∧
    (∀ d m out, SignFailure out → (citationFor d m out).url = none ∧
      ∃ s, (citationFor d m out).error = some s ∧ (SignMsgsNonempty out → s ≠ "")) ∧
    (∀ env2 : StorageEnv, env2.clientOk = false → ∀ c ∈ generateCitationUrls env2 ms e,
      c.url = none ∧ c.error = some "Failed to generate citations") ∧
    (∀ env3 : StorageEnv, ms ≠ [] →
      ((generateCitationUrls env3 ms e).map fun c => c.documentId).Nodup ∧
      ∀ d, d ∈ (generateCitationUrls env3 ms e).map (fun c => c.documentId) ↔
        d ∈ ms.map fun m => m.document_id) := by
  refine ⟨?_, ?_, ?_, ?_, ?_⟩
  · intro c hcmem
    by_cases hms : ms = []
    · subst hms
      rw [citations_empty_input] at hcmem
      exact absurd hcmem (List.not_mem_nil c)
    · rw [generateCitationUrls_clientOk env ms e hc hms] at hcmem
      have hmem2 := (List.perm_insertionSort relGE _).mem_iff.1 hcmem
      obtain ⟨p, hp, hpc⟩ := List.mem_map.1 hmem2
      obtain ⟨hid, hmm, _⟩ := (dedupByDocument_spec ms).2.2 p hp
      have hdoc : c.documentId = p.1 := by rw [← hpc, citationFor_documentId]
      exact ⟨p.2, hmm, hid.trans hdoc.symm, by rw [hdoc, ← hpc]⟩
  · intro d m url
    rfl
  · intro d m out hfail
    cases out with
    | ok url =>
      rcases hfail with h | ⟨msg, h⟩ | ⟨msg, h⟩ <;> exact absurd h (by simp)
    | okNoUrl =>
      exact ⟨rfl, "No signed URL returned", rfl, fun _ => by decide⟩
    | errResp msg =>
      exact ⟨rfl, msg, rfl, fun hne => hne.1 msg rfl⟩
    | thrown msg =>
      cases msg with
      | none => exact ⟨rfl, "Unknown error", rfl, fun _ => by decide⟩
      | some t => exact ⟨rfl, t, rfl, fun hne => hne.2 t rfl⟩
  · intro env2 h2 c hcmem
    by_cases hms : ms = []
    · subst hms
      rw [citations_empty_input] at hcmem
      exact absurd hcmem (List.not_mem_nil c)
    · rw [generateCitationUrls_clientBad env2 ms e h2 hms] at hcmem
      obtain ⟨d, hd, hdc⟩ := List.mem_map.1 hcmem
      have hdid : d ∈ ms.map fun m => m.document_id := (mem_uniqueFirst d _).1 hd
      obtain ⟨m, _, _, _, hrec⟩ := fallbackCitation_spec ms d hdid
      rw [← hdc, hrec]
      exact ⟨rfl, rfl⟩
  · intro env3 hms
    exact generateCitationUrls_ids env3 ms e hms

/-- C4: for non-empty input the citation count equals the number of
distinct document identifiers (hence never exceeds the input length) and
no document identifier repeats among the returned citations, on both the
normal and the fallback path; the empty input returns the empty list
without requesting the storage client and with no signing calls. -/
theorem generateCitationUrls_count_spec (env : StorageEnv) (ms : List DocumentMatch)
    (e : ℚ) (hne : ms ≠ []) :
    (generateCitationUrls env ms e).length = (ms.map fun m => m.document_id).toFinset.card ∧
    (generateCitationUrls env ms e).length ≤ ms.length ∧
    ((generateCitationUrls env ms e).map fun c => c.documentId).Nodup ∧
    ∀ (env2 : StorageEnv) (e2 : ℚ), generateCitationUrlsT env2 [] e2 = ([], ⟨false, []⟩) := by
  obtain ⟨hnd, hiff⟩ := generateCitationUrls_ids env ms e hne
  have hlen : (generateCitationUrls env ms e).length =
      (ms.map fun m => m.document_id).toFinset.card := by
    rw [← List.length_map (generateCitationUrls env ms e) fun c => c.documentId]
    exact nodup_length_eq_toFinset_card hnd hiff
  refine ⟨hlen, ?_, hnd, fun env2 e2 => generateCitationUrlsT_empty env2 e2⟩
  rw [hlen]
  calc (ms.map fun m => m.document_id).toFinset.card
      ≤ (ms.map fun m => m.document_id).length := List.toFinset_card_le _
    _ = ms.length := List.length_map ms _

theorem pct_half : pctString (1 / 2) = "50.0%" := by
  have hfloor : (⌊(1 / 2 : ℚ) * 100 * 10 + 1 / 2⌋ : ℤ) = 500 := by
    rw [Int.floor_eq_iff]
    constructor <;> norm_num
  simp only [pctString, toFixed1, hfloor]
  rfl

theorem pct_nine_tenths : pctString (9 / 10) = "90.0%" := by
  have hfloor : (⌊(9 / 10 : ℚ) * 100 * 10 + 1 / 2⌋ : ℤ) = 900 := by
    rw [Int.floor_eq_iff]
    constructor <;> norm_num
  simp only [pctString, toFixed1, hfloor]
  rfl

theorem parse_fifty : parseFloat "50.0%" = 50 := by
  have hdata : "50.0%".data = ['5', '0', '.', '0', '%'] := by decide
  rw [parseFloat, hdata, if_neg (by decide)]
  have h1 : ['5', '0', '.', '0', '%'].takeWhile Char.isDigit = ['5', '0'] := by decide
  have h2 : ['5', '0', '.', '0', '%'].dropWhile Char.isDigit = ['.', '0', '%'] := by decide
  have h3 : fracDigits ['.', '0', '%'] = ['0'] := by decide
  have h4 : digitsVal ['5', '0'] = 50 := by decide
  have h5 : digitsVal ['0'] = 0 := by decide
  rw [parseDec, h1, h2, h3, h4, h5]
  norm_num

theorem parse_ninety : parseFloat "90.0%" = 90 := by
  have hdata : "90.0%".data = ['9', '0', '.', '0', '%'] := by decide
  rw [parseFloat, hdata, if_neg (by decide)]
  have h1 : ['9', '0', '.', '0', '%'].takeWhile Char.isDigit = ['9', '0'] := by decide
  have h2 : ['9', '0', '.', '0', '%'].dropWhile Char.isDigit = ['.', '0', '%'] := by decide
  have h3 : fracDigits ['.', '0', '%'] = ['0'] := by decide
  have h4 : digitsVal ['9', '0'] = 90 := by decide
  have h5 : digitsVal ['0'] = 0 := by decide
  rw [parseDec, h1, h2, h3, h4, h5]
  norm_num

theorem fallback_output_dup :
    generateCitationUrls envDown [mDup1, mDup2] 3600 =
      [{ name := "Doc One", documentId := "doc-1", url := none,
         relevance := pctString (1 / 2), error := some "Failed to generate citations" }] := by
  rw [generateCitationUrls_clientBad envDown [mDup1, mDup2] 3600 rfl (List.cons_ne_nil _ _)]
  rfl

theorem fallback_output_two :
    generateCitationUrls envDown [mLow, mHigh] 3600 =
      [{ name := "Doc One", documentId := "doc-1", url := none,
         relevance := pctString (1 / 2), error := some "Failed to generate citations" },
       { name := "Doc Two", documentId := "doc-2", url := none,
         relevance := pctString (9 / 10), error := some "Failed to generate citations" }] := by
  rw [generateCitationUrls_clientBad envDown [mLow, mHigh] 3600 rfl (List.cons_ne_nil _ _)]
  rfl

/-- C1 counterexample: with the storage client down, resolving two
matches of the same document with similarities 0.5 then 0.9 yields a
single Citation whose relevance is the 0.5 of the FIRST match, not the
maximum 0.9: the claimed property fails on the catastrophic-fallback
path. -/
theorem fallback_relevance_not_max_ce :
    ¬ CarriesMaxRelevance envDown [mDup1, mDup2] 3600 := by
  intro h
  obtain ⟨m, hmem, _, hmax, hrel⟩ :=
    h _ (by rw [fallback_output_dup]; exact List.mem_singleton_self _)
  have h910 : mDup2.similarity ≤ m.similarity := hmax mDup2 (by simp) rfl
  rcases (by simpa using hmem : m = mDup1 ∨ m = mDup2) with rfl | rfl
  · exact absurd (show (9 : ℚ) / 10 ≤ 1 / 2 from h910) (by norm_num)
  · have heq : pctString (1 / 2) = pctString (9 / 10) := hrel
    rw [pct_half, pct_nine_tenths] at heq
    exact absurd heq (by decide)

/-- C2 counterexample: with the storage client down, resolving matches
of two documents with similarities 0.5 then 0.9 yields citations in
first-occurrence order 50.0 percent before 90.0 percent, violating the
claimed descending order on the catastrophic-fallback path. -/
theorem fallback_unsorted_ce :
    ¬ SortedByParsedRelevance envDown [mLow, mHigh] 3600 := by
  rw [SortedByParsedRelevance, fallback_output_two]
  intro hch
  have hr := (List.chain'_cons.1 hch).1
  have hr2 : parseFloat (pctString (9 / 10)) ≤ parseFloat (pctString (1 / 2)) := hr
  rw [pct_nine_tenths, pct_half, parse_ninety, parse_fifty] at hr2
  exact absurd hr2 (by norm_num)

/-- C1 witness: the amended relevance theorem applied to a healthy
environment and a concrete two-section match list. -/
theorem generateCitationUrls_relevance_spec_witness :
    envUp.clientOk = true ∧
    (CarriesMaxRelevance envUp [mDup1, mDup2] 3600 ∧
      ∀ env2 : StorageEnv, env2.clientOk = false →
        ∀ c ∈ generateCitationUrls env2 [mDup1, mDup2] 3600, ∃ m,
          [mDup1, mDup2].find? (fun m2 => m2.document_id == c.documentId) = some m ∧
          m.document_id = c.documentId ∧ c.relevance = pctString m.similarity) :=
  ⟨rfl, generateCitationUrls_relevance_spec envUp [mDup1, mDup2] 3600 rfl⟩

/-- C2 witness: the amended ordering theorem applied to a healthy
environment and a concrete two-document match list. -/
theorem generateCitationUrls_sorted_spec_witness :
    envUp.clientOk = true ∧
    (SortedByParsedRelevance envUp [mLow, mHigh] 3600 ∧
      ∀ env2 : StorageEnv, env2.clientOk = false → [mLow, mHigh] ≠ [] →
        generateCitationUrls env2 [mLow, mHigh] 3600 =
          (uniqueFirst ([mLow, mHigh].map fun m => m.document_id)).map
            (fallbackCitation [mLow, mHigh])) :=
  ⟨rfl, generateCitationUrls_sorted_spec envUp [mLow, mHigh] 3600 rfl⟩

/-- C3 witness: the isolation theorem applied to an environment in which
the first document's signing call fails and the second succeeds. -/
theorem generateCitationUrls_failure_isolation_witness :
    envMixed.clientOk = true ∧
    ((∀ c ∈ generateCitationUrls envMixed [mLow, mHigh] 3600, ∃ m, m ∈ [mLow, mHigh] ∧
        m.document_id = c.documentId ∧
        c = citationFor c.documentId m (envMixed.sign m.storage_path 3600)) ∧
      (∀ d m url, citationFor d m (.ok url) =
        { name := m.document_name, documentId := d, url := some url,
          relevance := pctString m.similarity, error := none }) ∧
      (∀ d m out, SignFailure out → (citationFor d m out).url = none ∧
        ∃ s, (citationFor d m out).error = some s ∧ (SignMsgsNonempty out → s ≠ "")) ∧
      (∀ env2 : StorageEnv, env2.clientOk = false →
        ∀ c ∈ generateCitationUrls env2 [mLow, mHigh] 3600,
          c.url = none ∧ c.error = some "Failed to generate citations") ∧
      (∀ env3 : StorageEnv, [mLow, mHigh] ≠ [] →
        ((generateCitationUrls env3 [mLow, mHigh] 3600).map fun c => c.documentId).Nodup ∧
        ∀ d, d ∈ (generateCitationUrls env3 [mLow, mHigh] 3600).map (fun c => c.documentId) ↔
          d ∈ [mLow, mHigh].map fun m => m.document_id)) :=
  ⟨rfl, generateCitationUrls_failure_isolation envMixed [mLow, mHigh] 3600 rfl⟩

/-- C4 witness: the counting theorem applied to a concrete non-empty
match list with a duplicated document identifier. -/
theorem generateCitationUrls_count_spec_witness :
    [mDup1, mDup2] ≠ [] ∧
    ((generateCitationUrls envUp [mDup1, mDup2] 3600).length =
        ([mDup1, mDup2].map fun m => m.document_id).toFinset.card ∧
      (generateCitationUrls envUp [mDup1, mDup2] 3600).length ≤ [mDup1, mDup2].length ∧
      ((generateCitationUrls envUp [mDup1, mDup2] 3600).map fun c => c.documentId).Nodup ∧
      ∀ (env2 : StorageEnv) (e2 : ℚ), generateCitationUrlsT env2 [] e2 = ([], ⟨false, []⟩)) :=
  ⟨List.cons_ne_nil _ _,
    generateCitationUrls_count_spec envUp [mDup1, mDup2] 3600 (List.cons_ne_nil _ _)⟩

/-- C7 counterexample: a match whose similarity equals the threshold is
retained by filterByThreshold (the source compares with >=), so the
claimed strict filtering fails at threshold 0.45. -/
theorem filterByThreshold_strict_ce :
    ¬ ThresholdStrict [mAtThreshold] (45 / 100) := by
  intro h
  have hmem : mAtThreshold ∈ filterByThreshold [mAtThreshold] (45 / 100) := by
    rw [filterByThreshold]
    refine List.mem_filter.2 ⟨List.mem_singleton_self _, ?_⟩
    rw [decide_eq_true_eq]
    exact le_refl _
  have hlt := ((h mAtThreshold).1 hmem).2
  exact absurd (show (45 : ℚ) / 100 < 45 / 100 from hlt) (lt_irrefl _)

/-- C7 (amended): filterByThreshold retains exactly the matches whose
similarity is at least the threshold — a match with similarity exactly
equal to the threshold is retained — and preserves the relative order of
retained matches (the output is a sublist of the input). -/
theorem filterByThreshold_ge_spec (ms : List DocumentMatch) (t : ℚ) :
    (∀ m, m ∈ filterByThreshold ms t ↔ m ∈ ms ∧ t ≤ m.similarity) ∧
    (filterByThreshold ms t).Sublist ms := by
  refine ⟨?_, List.filter_sublist ms⟩
  intro m
  rw [filterByThreshold, List.mem_filter, decide_eq_true_eq]

theorem isPrefixList_iff : ∀ p l : List Char, isPrefixList p l = true ↔ p <+: l
  | [], l => by simp [isPrefixList, List.nil_prefix]
  | a :: as, [] => by simp [isPrefixList]
  | a :: as, b :: bs => by
    rw [isPrefixList, Bool.and_eq_true, beq_iff_eq, isPrefixList_iff as bs,
      List.cons_prefix_cons]

theorem isInfixList_iff : ∀ (l p : List Char), isInfixList p l = true ↔ p <:+: l
  | [], p => by simp [isInfixList, List.infix_nil, List.isEmpty_iff]
  | b :: bs, p => by
    rw [isInfixList, Bool.or_eq_true, isPrefixList_iff, isInfixList_iff bs p,
      List.infix_cons_iff]

theorem strIncludes_iff (s sub : String) : strIncludes s sub = true ↔ occursIn sub s :=
  isInfixList_iff s.data sub.data

theorem occursIn_trans {a b c : String} (h1 : occursIn a b) (h2 : occursIn b c) :
    occursIn a c :=
  List.IsInfix.trans h1 h2

theorem occursIn_refl (s : String) : occursIn s s :=
  ⟨[], [], by simp⟩

theorem occursIn_append_left {sub a : String} (b : String) (h : occursIn sub a) :
    occursIn sub (a ++ b) := by
  rw [occursIn, String.data_append]
  exact h.trans ⟨[], b.data, by simp⟩

theorem occursIn_append_right {sub b : String} (a : String) (h : occursIn sub b) :
    occursIn sub (a ++ b) := by
  rw [occursIn, String.data_append]
  exact h.trans ⟨a.data, [], by simp⟩

theorem occursIn_of_mem_joinSep (sep : String) :
    ∀ (l : List String) (x : String), x ∈ l → occursIn x (joinSep sep l)
  | [], x, hx => absurd hx (List.not_mem_nil x)
  | [s], x, hx => by
    rw [List.mem_singleton] at hx
    subst hx
    exact occursIn_refl x
  | s :: t :: rest, x, hx => by
    rcases List.mem_cons.1 hx with rfl | hx2
    · exact occursIn_append_left _ (occursIn_append_left _ (occursIn_refl x))
    · exact occursIn_append_right _ (occursIn_of_mem_joinSep sep (t :: rest) x hx2)

/-- C8: buildContext is total; the empty list yields the fixed non-empty
sentinel; a non-empty list is rendered in input order (one rendering per
match, joined by blank lines), and each match's rendering contributes a
separator line holding the 1-based source index and the similarity
percentage to one decimal place, the document display name, the heading
when present (and truthy), and the trimmed content. -/
theorem buildContext_spec (ms : List DocumentMatch) (hne : ms ≠ []) :
    buildContext [] = "No relevant context found." ∧
    buildContext [] ≠ "" ∧
    buildContext ms = joinSep "\n\n" (ms.enum.map fun p => renderMatch p.1 p.2) ∧
    ∀ p ∈ ms.enum,
      occursIn ("--- Source " ++ Nat.repr (p.1 + 1) ++ " (Relevance: " ++
        pctString p.2.similarity ++ ") ---") (buildContext ms) ∧
      occursIn ("Document: " ++ p.2.document_name) (buildContext ms) ∧
      (∀ hd, p.2.heading = some hd → hd ≠ "" →
        occursIn ("Section: " ++ hd) (buildContext ms)) ∧
      occursIn ("Content: " ++ jsTrim p.2.content) (buildContext ms) := by
  have h3 : buildContext ms = joinSep "\n\n" (ms.enum.map fun p => renderMatch p.1 p.2) := by
    cases ms with
    | nil => exact absurd rfl hne
    | cons a l => rfl
  refine ⟨rfl, by decide, h3, ?_⟩
  intro p hp
  have hrend : occursIn (renderMatch p.1 p.2) (buildContext ms) := by
    rw [h3]
    exact occursIn_of_mem_joinSep _ _ _ (List.mem_map_of_mem _ hp)
  have hpart : ∀ x ∈ renderParts p.1 p.2, occursIn x (buildContext ms) := by
    intro x hx
    exact occursIn_trans (occursIn_of_mem_joinSep "\n" _ x hx) hrend
  refine ⟨?_, ?_, ?_, ?_⟩
  · exact hpart _ (by simp [renderParts])
  · exact hpart _ (by simp [renderParts])
  · intro hd hh hne2
    refine hpart _ ?_
    simp [renderParts, hh, hne2]
  · exact hpart _ (by simp [renderParts])

/-- C8 witness: the buildContext theorem applied to a one-match list
with a heading. -/
theorem buildContext_spec_witness :
    ([mHead] : List DocumentMatch) ≠ [] ∧
    (buildContext [] = "No relevant context found." ∧
      buildContext [] ≠ "" ∧
      buildContext [mHead] =
        joinSep "\n\n" (([mHead] : List DocumentMatch).enum.map fun p => renderMatch p.1 p.2) ∧
      ∀ p ∈ ([mHead] : List DocumentMatch).enum,
        occursIn ("--- Source " ++ Nat.repr (p.1 + 1) ++ " (Relevance: " ++
          pctString p.2.similarity ++ ") ---") (buildContext [mHead]) ∧
        occursIn ("Document: " ++ p.2.document_name) (buildContext [mHead]) ∧
        (∀ hd, p.2.heading = some hd → hd ≠ "" →
          occursIn ("Section: " ++ hd) (buildContext [mHead])) ∧
        occursIn ("Content: " ++ jsTrim p.2.content) (buildContext [mHead])) :=
  ⟨List.cons_ne_nil _ _, buildContext_spec [mHead] (List.cons_ne_nil _ _)⟩

/-- C5: chat never throws past its boundary — it always returns the
stream-plus-citations shape. An empty message list or a last message
with empty content fails fast with an immediately-failed stream, empty
citations and zero embedding-provider calls; embedding and search
failures return the same shape with the failure message on the stream
and empty citations. -/
theorem chat_error_boundary_spec (env : ChatEnv) (msgs : List Message) (lm : Message)
    (hlast : msgs.getLast? = some lm) :
    (∀ env2 : ChatEnv, chat env2 [] =
      ({ object := .failedNow "No messages provided", citations := [] }, 0)) ∧
    (lm.content = "" → chat env msgs =
      ({ object := .failedNow "Invalid message format", citations := [] }, 0)) ∧
    (∀ e2, lm.content ≠ "" → env.embed lm.content = .error e2 →
      chat env msgs = ({ object := .failedNow e2, citations := [] }, 1)) ∧
    (∀ e2 vec, lm.content ≠ "" → env.embed lm.content = .ok vec →
      env.ragSearch vec = .error e2 →
      chat env msgs = ({ object := .failedNow e2, citations := [] }, 1)) ∧
    (∀ (env3 : ChatEnv) (msgs3 : List Message),
      ∃ st cs n, chat env3 msgs3 = ({ object := st, citations := cs }, n)) := by
  refine ⟨?_, ?_, ?_, ?_, ?_⟩
  · intro env2
    rfl
  · intro hc
    simp only [chat, hlast]
    rw [if_pos hc]
  · intro e2 hc hembed
    simp only [chat, hlast]
    rw [if_neg hc, hembed]
  · intro e2 vec hc hembed hsearch
    simp only [chat, hlast]
    rw [if_neg hc]
    simp only [hembed, hsearch]
  · intro env3 msgs3
    exact ⟨(chat env3 msgs3).1.object, (chat env3 msgs3).1.citations, (chat env3 msgs3).2, rfl⟩

/-- C5 witness: the chat boundary theorem applied to a concrete
environment and a one-message history. -/
theorem chat_error_boundary_spec_witness :
    ([⟨"user", "hi"⟩] : List Message).getLast? = some ⟨"user", "hi"⟩ ∧
    ((∀ env2 : ChatEnv, chat env2 [] =
        ({ object := .failedNow "No messages provided", citations := [] }, 0)) ∧
      ((Message.mk "user" "hi").content = "" → chat envChatEmbedDown [⟨"user", "hi"⟩] =
        ({ object := .failedNow "Invalid message format", citations := [] }, 0)) ∧
      (∀ e2, (Message.mk "user" "hi").content ≠ "" →
        envChatEmbedDown.embed (Message.mk "user" "hi").content = .error e2 →
        chat envChatEmbedDown [⟨"user", "hi"⟩] =
          ({ object := .failedNow e2, citations := [] }, 1)) ∧
      (∀ e2 vec, (Message.mk "user" "hi").content ≠ "" →
        envChatEmbedDown.embed (Message.mk "user" "hi").content = .ok vec →
        envChatEmbedDown.ragSearch vec = .error e2 →
        chat envChatEmbedDown [⟨"user", "hi"⟩] =
          ({ object := .failedNow e2, citations := [] }, 1)) ∧
      (∀ (env3 : ChatEnv) (msgs3 : List Message),
        ∃ st cs n, chat env3 msgs3 = ({ object := st, citations := cs }, n))) :=
  ⟨rfl, chat_error_boundary_spec envChatEmbedDown [⟨"user", "hi"⟩] ⟨"user", "hi"⟩ rfl⟩

theorem strIncludes_append_left (a b sub : String) (h : strIncludes a sub = true) :
    strIncludes (a ++ b) sub = true := by
  rw [strIncludes_iff] at h ⊢
  exact occursIn_append_left b h

theorem nonRetryable_dims (n : ℕ) :
    nonRetryable ("Expected 1536 dimensions, got " ++ Nat.repr n) = true := by
  have h2 : strIncludes ("Expected 1536 dimensions, got " ++ Nat.repr n) "dimensions" = true :=
    strIncludes_append_left _ _ _ (by decide)
  rw [nonRetryable, h2, Bool.or_true]

theorem embedLoop_thrown_retry (provider : ℕ → EmbedCallOutcome) (r calls : ℕ)
    (lastErr msg : String) (hp : provider calls = .thrown msg)
    (hm : nonRetryable msg = false) :
    embedLoop provider (r + 1) calls lastErr = embedLoop provider r (calls + 1) msg := by
  simp [embedLoop, hp, hm]

theorem embedLoop_resp_ok (provider : ℕ → EmbedCallOutcome) (r calls : ℕ)
    (lastErr : String) (emb : List ℚ) (hp : provider calls = .resp (some emb))
    (hlen : emb.length = EMBEDDING_DIMENSIONS) :
    embedLoop provider (r + 1) calls lastErr = (.ok emb, calls + 1) := by
  simp [embedLoop, hp, hlen]

theorem embedLoop_resp_badlen (provider : ℕ → EmbedCallOutcome) (r calls : ℕ)
    (lastErr : String) (emb : List ℚ) (hp : provider calls = .resp (some emb))
    (hlen : emb.length ≠ EMBEDDING_DIMENSIONS) :
    embedLoop provider (r + 1) calls lastErr =
      (.error ("Expected 1536 dimensions, got " ++ Nat.repr emb.length), calls + 1) := by
  simp [embedLoop, hp, hlen, nonRetryable_dims]

/-- C9: a provider that fails transiently on its first two calls and
succeeds on the third with a 1536-dimensional vector makes exactly three
calls and returns that vector; empty input after trimming fails before
any provider call; a dimensionality mismatch after a successful provider
call is fatal immediately (one call, no retry), its message naming the
dimensions. -/
theorem generateEmbedding_retry_spec (provider : ℕ → EmbedCallOutcome) (text : String)
    (emb : List ℚ) (m0 m1 : String)
    (htext : jsTrim text ≠ "")
    (h0 : provider 0 = .thrown m0) (h0t : nonRetryable m0 = false)
    (h1 : provider 1 = .thrown m1) (h1t : nonRetryable m1 = false)
    (h2 : provider 2 = .resp (some emb)) (hlen : emb.length = EMBEDDING_DIMENSIONS) :
    generateEmbedding provider text = (.ok emb, 3) ∧
    emb.length = EMBEDDING_DIMENSIONS ∧
    (∀ (p : ℕ → EmbedCallOutcome) (t : String), jsTrim t = "" →
      generateEmbedding p t = (.error "Cannot generate embedding for empty text", 0)) ∧
    (∀ (p : ℕ → EmbedCallOutcome) (t : String) (e : List ℚ), jsTrim t ≠ "" →
      p 0 = .resp (some e) → e.length ≠ EMBEDDING_DIMENSIONS →
      generateEmbedding p t =
        (.error ("Expected 1536 dimensions, got " ++ Nat.repr e.length), 1)) := by
  refine ⟨?_, hlen, ?_, ?_⟩
  · rw [generateEmbedding, if_neg htext]
    have e1 : embedLoop provider 3 0 "" = embedLoop provider 2 1 m0 :=
      embedLoop_thrown_retry provider 2 0 "" m0 h0 h0t
    have e2 : embedLoop provider 2 1 m0 = embedLoop provider 1 2 m1 :=
      embedLoop_thrown_retry provider 1 1 m0 m1 h1 h1t
    have e3 : embedLoop provider 1 2 m1 = (.ok emb, 3) :=
      embedLoop_resp_ok provider 0 2 m1 emb h2 hlen
    rw [show EMBEDDING_MAX_RETRIES = 3 from rfl, e1, e2, e3]
  · intro p t ht
    rw [generateEmbedding, if_pos ht]
  · intro p t e ht hp hl
    rw [generateEmbedding, if_neg ht]
    exact embedLoop_resp_badlen p 2 0 "" e hp hl

/-- C9 witness: the retry theorem applied to the concrete provider above
and a non-blank query. -/
theorem generateEmbedding_retry_spec_witness :
    jsTrim "query" ≠ "" ∧
    provRetry 0 = .thrown "socket hang up" ∧
    nonRetryable "socket hang up" = false ∧
    provRetry 1 = .thrown "socket hang up" ∧
    provRetry 2 = .resp (some (List.replicate 1536 0)) ∧
    (List.replicate 1536 (0 : ℚ)).length = EMBEDDING_DIMENSIONS ∧
    (generateEmbedding provRetry "query" = (.ok (List.replicate 1536 0), 3) ∧
      (List.replicate 1536 (0 : ℚ)).length = EMBEDDING_DIMENSIONS ∧
      (∀ (p : ℕ → EmbedCallOutcome) (t : String), jsTrim t = "" →
        generateEmbedding p t = (.error "Cannot generate embedding for empty text", 0)) ∧
      (∀ (p : ℕ → EmbedCallOutcome) (t : String) (e : List ℚ), jsTrim t ≠ "" →
        p 0 = .resp (some e) → e.length ≠ EMBEDDING_DIMENSIONS →
        generateEmbedding p t =
          (.error ("Expected 1536 dimensions, got " ++ Nat.repr e.length), 1))) :=
  ⟨by decide, rfl, by decide, rfl, rfl, by rw [List.length_replicate]; rfl,
    generateEmbedding_retry_spec provRetry "query" (List.replicate 1536 0)
      "socket hang up" "socket hang up" (by decide) rfl (by decide) rfl (by decide) rfl
      (by rw [List.length_replicate]; rfl)⟩

theorem sliceChunksAux_join (bs : ℕ) (hbs : 1 ≤ bs) :
    ∀ (fuel : ℕ) (l : List String), l.length ≤ fuel → (sliceChunksAux bs fuel l).flatten = l
  | 0, l, h => by
    have hl : l = [] := List.eq_nil_of_length_eq_zero (Nat.le_zero.1 h)
    subst hl
    rfl
  | fuel + 1, [], _ => rfl
  | fuel + 1, a :: l, h => by
    rw [sliceChunksAux, List.flatten_cons]
    have hrec : ((a :: l).drop bs).length ≤ fuel := by
      rw [List.length_drop]
      simp only [List.length_cons] at h ⊢
      omega
    rw [sliceChunksAux_join bs hbs fuel ((a :: l).drop bs) hrec, List.take_append_drop]

theorem sliceChunksAux_mem_length (bs : ℕ) :
    ∀ (fuel : ℕ) (l : List String), ∀ b ∈ sliceChunksAux bs fuel l, b.length ≤ bs
  | 0, l, b, hb => by simp [sliceChunksAux] at hb
  | _ + 1, [], b, hb => by simp [sliceChunksAux] at hb
  | fuel + 1, a :: l, b, hb => by
    rw [sliceChunksAux] at hb
    rcases List.mem_cons.1 hb with rfl | hb2
    · rw [List.length_take]
      exact min_le_left _ _
    · exact sliceChunksAux_mem_length bs fuel ((a :: l).drop bs) b hb2

theorem sliceChunks_flatten (bs : ℕ) (hbs : 1 ≤ bs) (l : List String) :
    (sliceChunks bs l).flatten = l :=
  sliceChunksAux_join bs hbs l.length l (le_refl _)

theorem sliceChunks_mem_length (bs : ℕ) (l : List String) :
    ∀ b ∈ sliceChunks bs l, b.length ≤ bs :=
  sliceChunksAux_mem_length bs l.length l

theorem pairwise_fst_lt_enumFrom {α : Type} (l : List α) :
    ∀ n, (List.enumFrom n l).Pairwise fun a b => a.1 < b.1 := by
  induction l with
  | nil => intro n; simp
  | cons a l ih =>
    intro n
    rw [List.enumFrom_cons]
    refine List.pairwise_cons.2 ⟨?_, ih (n + 1)⟩
    rintro ⟨i, y⟩ hx
    have h := List.mem_enumFrom hx
    exact lt_of_lt_of_le (Nat.lt_succ_self n) h.1

theorem sorted_idxLE_map (b : List String) (f : String → List ℚ) :
    List.Sorted idxLE (b.enum.map fun q => (q.1, f q.2)) := by
  rw [List.Sorted, List.pairwise_map]
  have h := pairwise_fst_lt_enumFrom b 0
  exact h.imp fun hlt => le_of_lt hlt

theorem batchRetry_thrown_step (p2 : ℕ → BatchCallOutcome) (batch : List String)
    (r c : ℕ) (m : String) (hp : p2 c = .thrown m) (hr : r ≠ 0) :
    batchRetry p2 batch (r + 1) c =
      ((batchRetry p2 batch r (c + 1)).1, (batchRetry p2 batch r (c + 1)).2.1,
        batch :: (batchRetry p2 batch r (c + 1)).2.2) := by
  simp [batchRetry, hp, hr]

theorem batchRetry_resp_step (p2 : ℕ → BatchCallOutcome) (batch : List String)
    (r c : ℕ) (data : List (ℕ × List ℚ)) (hp : p2 c = .resp data) :
    batchRetry p2 batch (r + 1) c =
      (.ok ((data.insertionSort idxLE).map fun q => q.2), c + 1, [batch]) := by
  simp [batchRetry, hp]

theorem batchRetry_two_failures (p2 : ℕ → BatchCallOutcome) (batch : List String) (c : ℕ)
    (m0 m1 : String) (data : List (ℕ × List ℚ))
    (h0 : p2 c = .thrown m0) (h1 : p2 (c + 1) = .thrown m1) (h2 : p2 (c + 2) = .resp data) :
    batchRetry p2 batch EMBEDDING_MAX_RETRIES c =
      (.ok ((data.insertionSort idxLE).map fun q => q.2), c + 3, [batch, batch, batch]) := by
  have s1 := batchRetry_thrown_step p2 batch 2 c m0 h0 (by decide)
  have s2 := batchRetry_thrown_step p2 batch 1 (c + 1) m1 h1 (by decide)
  have s3 := batchRetry_resp_step p2 batch 0 (c + 2) data h2
  show batchRetry p2 batch (2 + 1) c = _
  rw [s1, s2, s3]

theorem batchLoop_ideal (provider : ℕ → BatchCallOutcome) (f : String → List ℚ) :
    ∀ (chunks : List (List String)) (start : ℕ),
      (∀ k (hk : k < chunks.length), provider (start + k) =
        .resp ((chunks.get ⟨k, hk⟩).enum.map fun q => (q.1, f q.2))) →
      batchLoop provider chunks start =
        (.ok (chunks.flatten.map f), start + chunks.length, chunks)
  | [], start, _ => by simp [batchLoop]
  | b :: rest, start, hprov => by
    have h0 : provider start = .resp (b.enum.map fun q => (q.1, f q.2)) := by
      have h := hprov 0 (Nat.succ_pos _)
      simpa using h
    have hretry := batchRetry_resp_step provider b 2 start _ h0
    have hsorted := (sorted_idxLE_map b f).insertionSort_eq
    have hshift : ∀ k (hk : k < rest.length), provider (start + 1 + k) =
        .resp ((rest.get ⟨k, hk⟩).enum.map fun q => (q.1, f q.2)) := by
      intro k hk
      have h := hprov (k + 1) (Nat.succ_lt_succ hk)
      rw [show start + (k + 1) = start + 1 + k from by omega] at h
      simpa using h
    have hih := batchLoop_ideal provider f rest (start + 1) hshift
    have hembs : ((b.enum.map fun q => (q.1, f q.2)).insertionSort idxLE).map
        (fun q => q.2) = b.map f := by
      rw [hsorted, List.map_map]
      have : ((fun q => q.2) ∘ fun q : ℕ × String => (q.1, f q.2)) =
          (f ∘ Prod.snd) := rfl
      rw [this, ← List.map_map, List.enum_map_snd]
    show batchLoop provider (b :: rest) start = _
    rw [batchLoop]
    rw [show batchRetry provider b EMBEDDING_MAX_RETRIES start =
      (.ok (b.map f), start + 1, [b]) from by
        rw [show EMBEDDING_MAX_RETRIES = 2 + 1 from rfl, hretry, hembs]]
    simp only [hih]
    rw [List.flatten_cons, List.map_append, List.length_cons,
      show start + 1 + rest.length = start + (rest.length + 1) from by omega,
      List.singleton_append]

/-- C6 counterexample: batching ["", "a"] returns two embeddings — the
blank entry is sent to the provider and embedded like any other — while
dropping blanks would return one. -/
theorem batch_blanks_not_dropped_ce :
    ¬ BatchCountMatchesNonBlank true provPair ["", "a"] 100 := by
  intro h
  have hrun : (generateEmbeddingsBatch true provPair ["", "a"] 100).1 =
      .ok [[(1 : ℚ)], [2]] := rfl
  have hlen := h _ hrun
  have hfilt : ((["", "a"] : List String).filter fun t => !(jsTrim t == "")).length = 1 := by
    decide
  rw [hfilt] at hlen
  exact absurd hlen (by decide)

/-- C6 (amended): the batch variant does NOT drop blank entries — it
slices the full input, blanks included, into consecutive batches of at
most batchSize; when every batch call succeeds with one indexed
embedding per entry the output lists the embeddings in input order; each
batch is retried independently with the same maximum of three attempts
as the single-text variant (the backoff delays are timing and are not
modelled). -/
theorem generateEmbeddingsBatch_spec (provider : ℕ → BatchCallOutcome)
    (texts : List String) (bs : ℕ) (f : String → List ℚ)
    (hbs : 1 ≤ bs) (hne : texts ≠ [])
    (hprov : ∀ k (hk : k < (sliceChunks bs texts).length), provider k =
      .resp (((sliceChunks bs texts).get ⟨k, hk⟩).enum.map fun q => (q.1, f q.2))) :
    generateEmbeddingsBatch true provider texts bs =
      (.ok (texts.map f), (sliceChunks bs texts).length, sliceChunks bs texts) ∧
    (sliceChunks bs texts).flatten = texts ∧
    (∀ b ∈ sliceChunks bs texts, b.length ≤ bs) ∧
    (∀ (p2 : ℕ → BatchCallOutcome) (batch : List String) (c : ℕ) (m0 m1 : String)
      (data : List (ℕ × List ℚ)),
      p2 c = .thrown m0 → p2 (c + 1) = .thrown m1 → p2 (c + 2) = .resp data →
      batchRetry p2 batch EMBEDDING_MAX_RETRIES c =
        (.ok ((data.insertionSort idxLE).map fun q => q.2), c + 3, [batch, batch, batch])) := by
  have hie : texts.isEmpty = false := by
    cases texts with
    | nil => exact absurd rfl hne
    | cons a l => rfl
  have hstart : ∀ k (hk : k < (sliceChunks bs texts).length), provider (0 + k) =
      .resp (((sliceChunks bs texts).get ⟨k, hk⟩).enum.map fun q => (q.1, f q.2)) := by
    intro k hk
    rw [Nat.zero_add]
    exact hprov k hk
  have hloop := batchLoop_ideal provider f (sliceChunks bs texts) 0 hstart
  refine ⟨?_, sliceChunks_flatten bs hbs texts, sliceChunks_mem_length bs texts, ?_⟩
  · have hred : generateEmbeddingsBatch true provider texts bs =
        batchLoop provider (sliceChunks bs texts) 0 := by
      simp [generateEmbeddingsBatch, hie]
    rw [hred, hloop, sliceChunks_flatten bs hbs texts, Nat.zero_add]
  · intro p2 batch c m0 m1 data h0 h1 h2
    exact batchRetry_two_failures p2 batch c m0 m1 data h0 h1 h2

/-- C6 witness: the amended batch theorem applied to the two-entry list
containing a blank, with the provider above. -/
theorem generateEmbeddingsBatch_spec_witness :
    1 ≤ 100 ∧ (["", "a"] : List String) ≠ [] ∧
    (generateEmbeddingsBatch true provPair ["", "a"] 100 =
        (.ok ((["", "a"] : List String).map fBlank),
          (sliceChunks 100 ["", "a"]).length, sliceChunks 100 ["", "a"]) ∧
      (sliceChunks 100 ["", "a"]).flatten = ["", "a"] ∧
      (∀ b ∈ sliceChunks 100 ["", "a"], b.length ≤ 100) ∧
      (∀ (p2 : ℕ → BatchCallOutcome) (batch : List String) (c : ℕ) (m0 m1 : String)
        (data : List (ℕ × List ℚ)),
        p2 c = .thrown m0 → p2 (c + 1) = .thrown m1 → p2 (c + 2) = .resp data →
        batchRetry p2 batch EMBEDDING_MAX_RETRIES c =
          (.ok ((data.insertionSort idxLE).map fun q => q.2), c + 3, [batch, batch, batch]))) :=
  ⟨by decide, List.cons_ne_nil _ _,
    generateEmbeddingsBatch_spec provPair ["", "a"] 100 fBlank (by decide)
      (List.cons_ne_nil _ _)
      (fun k hk => by
        have hk0 : k = 0 := Nat.lt_one_iff.1 (by
          have hlen1 : (sliceChunks 100 (["", "a"] : List String)).length = 1 := by decide
          rw [hlen1] at hk
          exact hk)
        subst hk0
        rfl)⟩

/-- C10: the empty text list returns the empty embedding list
immediately — zero provider calls, no batches sent — whatever the client
state, since the return precedes obtaining the OpenAI client. -/
theorem generateEmbeddingsBatch_empty_spec (clientOk : Bool)
    (provider : ℕ → BatchCallOutcome) (bs : ℕ) :
    generateEmbeddingsBatch clientOk provider [] bs = (.ok [], 0, []) := rfl
